import Mathlib

/-!
Shallow embedding of the zet-map realtime vehicle pipeline (the current
variant in src/main.go: trip-metadata cache with staleness detection,
GTFS-realtime fetch, snapshot building, heading smoothing and the
timestamp-deduplicated update loop).

Go maps are modelled as association lists (first matching key wins, keys
unique by construction), machine floats as real numbers, `uint64`
timestamps as naturals (only order comparisons occur), and network I/O as
an explicit environment value describing the responses the process would
receive during one cycle.
-/

namespace ZetMap

/-- Trip metadata: headsign and scheduled direction flag (`Trip` in src/main.go). -/
structure Trip where
  headsign : String
  direction : String
deriving DecidableEq

/-- Association-list lookup keyed by strings; models Go map indexing. -/
def assocFind {α : Type} (l : List (String × α)) (k : String) : Option α :=
  (l.find? (fun p => p.1 == k)).map (fun p => p.2)

/-- `map[RouteID]Trips` from src/main.go, as a nested association list. -/
abbrev RoutesToTrips := List (String × List (String × Trip))

/-- `getTrip` (src/main.go:287-297): two-level map lookup returning the zero
`Trip` and `false` on a miss. -/
def getTrip (rt : RoutesToTrips) (route_id trip_id : String) : Trip × Bool :=
  match assocFind rt route_id with
  | some route =>
    match assocFind route trip_id with
    | some trip => (trip, true)
    | none => (⟨"", ""⟩, false)
  | none => (⟨"", ""⟩, false)

/-- The mutable cache state: the `routesToTrips` map and the
`cachedTripsFilename` version token (src/main.go:259-260). -/
structure CacheState where
  routesToTrips : RoutesToTrips
  cachedTripsFilename : String
deriving DecidableEq

/-- Outcome of one GET of the schedule archive, as observed through
`fetchTripsData` plus the CSV parse in `getTripsData`:
`failure` covers a transport error, an unreadable body, a bad zip, or a
missing `trips.txt` (in all of which `fetchTripsData` returns an error and
leaves the version token alone, and the CSV reader over nil bytes then
yields no rows and a nil error); `success d rows parseError` means
`trips.txt` was extracted (the token becomes the Content-Disposition `d`)
and the CSV `ReadAll` returned `rows` together with an error iff
`parseError`. -/
inductive TripsFetchOutcome where
  | failure : TripsFetchOutcome
  | success : String → List (List String) → Bool → TripsFetchOutcome
deriving DecidableEq

/-- The network responses available during one cycle: the
Content-Disposition the HEAD probe returns (`none` = transport error) and
the outcome of a GET of the archive. -/
structure NetEnv where
  headDisposition : Option String
  tripsFetch : TripsFetchOutcome
deriving DecidableEq

/-- `isTripsDataStale` (src/main.go:493-507): HEAD the archive URL; on
error report not-stale; otherwise stale iff the disposition is an
attachment with the expected filename prefix and differs from the cached
token. -/
def isTripsDataStale (env : NetEnv) (cachedFilename : String) : Bool :=
  match env.headDisposition with
  | none => false
  | some contentDisposition =>
    let isAttachment :=
      "attachment; filename=zet-gtfs-scheduled".data.isPrefixOf contentDisposition.data
    let matchesCachedValue := contentDisposition == cachedFilename
    isAttachment && !matchesCachedValue

/-- `getTripsData` (src/main.go:543-557) composed with `fetchTripsData`
(src/main.go:509-541): returns the parsed CSV rows (header already
consumed) and an error flag, updating the cached version token exactly
when the download extracted `trips.txt`.  On a download failure
`fetchTripsData` errors but `getTripsData` continues and parses nil bytes,
so it returns no rows and a nil error. -/
def getTripsData (env : NetEnv) (s : CacheState) :
    (List (List String) × Bool) × CacheState :=
  match env.tripsFetch with
  | .failure => (([], false), s)
  | .success d rows parseError =>
    ((rows, parseError), { s with cachedTripsFilename := d })

/-- The cache rebuild loop body (src/main.go:351-360, identical to the
loading loop in `main`, src/main.go:566-574): start from an empty map and
insert `row[0] -> row[2] -> Trip{row[3], row[5]}` for each row. -/
def setTrip (ts : List (String × Trip)) (tid : String) (t : Trip) :
    List (String × Trip) :=
  match ts with
  | [] => [(tid, t)]
  | (k, v) :: rest => if k == tid then (k, t) :: rest else (k, v) :: setTrip rest tid t

/-- Insert one (route, trip) binding into the nested map. -/
def insertTrip (rt : RoutesToTrips) (rid tid : String) (t : Trip) : RoutesToTrips :=
  match rt with
  | [] => [(rid, [(tid, t)])]
  | (r, ts) :: rest =>
    if r == rid then (r, setTrip ts tid t) :: rest
    else (r, ts) :: insertTrip rest rid tid t

/-- Build a fresh `routesToTrips` map from CSV rows (`clear` + insertion
loop, src/main.go:351-360). -/
def buildRoutesToTrips (rows : List (List String)) : RoutesToTrips :=
  rows.foldl
    (fun rt row =>
      insertTrip rt (row.getD 0 "") (row.getD 2 "")
        ⟨row.getD 3 "", row.getD 5 ""⟩)
    []

/-- Result of one enrichment lookup including its refresh side effects,
with instrumentation counting how many times `getTripsData` was invoked
and how many times `getTrip` was consulted. -/
structure LookupResult where
  trip : Trip
  found : Bool
  state : CacheState
  refreshes : Nat
  lookups : Nat
deriving DecidableEq

/-- The lookup-miss handling inside `getRoutes` (src/main.go:343-369):
look the pair up; on a miss, if the archive token is stale call
`getTripsData` once and — faithfully to the source's `if err != nil`
test — rebuild the map only when the CSV parse REPORTED AN ERROR, then
retry the lookup exactly once; on a non-stale miss do nothing further. -/
def lookupWithRefresh (env : NetEnv) (s : CacheState) (routeId tripId : String) :
    LookupResult :=
  let first := getTrip s.routesToTrips routeId tripId
  if first.2 then ⟨first.1, true, s, 0, 1⟩
  else if isTripsDataStale env s.cachedTripsFilename then
    let fetched := getTripsData env s
    let s2 :=
      if fetched.1.2 then
        { fetched.2 with routesToTrips := buildRoutesToTrips fetched.1.1 }
      else fetched.2
    let second := getTrip s2.routesToTrips routeId tripId
    ⟨second.1, second.2, s2, 1, 2⟩
  else ⟨first.1, false, s, 0, 1⟩

/-! ## GTFS-realtime feed model (protobuf messages and their getters) -/

/-- `gtfs.TripDescriptor`: optional route and trip identifiers. -/
structure TripDescriptor where
  routeId : Option String
  tripId : Option String

/-- `gtfs.Position`: optional latitude/longitude (proto floats, idealised
as reals). -/
structure PositionMsg where
  latitude : Option ℝ
  longitude : Option ℝ

/-- `gtfs.VehicleDescriptor`: optional vehicle id. -/
structure VehicleDescriptor where
  id : Option String

/-- `gtfs.VehiclePosition`: the sub-messages `getRoutes` reads.  Proto
getters return the zero value through any missing link in the chain. -/
structure VehiclePosition where
  trip : Option TripDescriptor
  position : Option PositionMsg
  vehicle : Option VehicleDescriptor

/-- `v.GetTrip().GetRouteId()`. -/
def VehiclePosition.getRouteId (v : VehiclePosition) : String :=
  (v.trip.bind TripDescriptor.routeId).getD ""

/-- `v.GetTrip().GetTripId()`. -/
def VehiclePosition.getTripId (v : VehiclePosition) : String :=
  (v.trip.bind TripDescriptor.tripId).getD ""

/-- `v.GetVehicle().GetId()`. -/
def VehiclePosition.getVehicleId (v : VehiclePosition) : String :=
  (v.vehicle.bind VehicleDescriptor.id).getD ""

/-- `v.GetPosition().GetLatitude()`. -/
def VehiclePosition.getLatitude (v : VehiclePosition) : ℝ :=
  (v.position.bind PositionMsg.latitude).getD 0

/-- `v.GetPosition().GetLongitude()`. -/
def VehiclePosition.getLongitude (v : VehiclePosition) : ℝ :=
  (v.position.bind PositionMsg.longitude).getD 0

/-- `gtfs.FeedEntity`: carries an optional vehicle-position record. -/
structure FeedEntity where
  vehicle : Option VehiclePosition

/-- `gtfs.FeedMessage`: header timestamp (optional `uint64`) plus
entities. -/
structure FeedMessage where
  headerTimestamp : Option Nat
  entity : List FeedEntity

/-- `getVehiclesData` (src/main.go:325-333): collect the vehicle records
of the entities that carry one; the error result is always nil. -/
def getVehiclesData (feed : FeedMessage) : List VehiclePosition × Option String :=
  (feed.entity.filterMap FeedEntity.vehicle, none)

/-! ## Snapshot building (`getRoutes`) -/

/-- The published `Vehicle` struct (src/main.go:240-246); `Direction` is a
Go `int`, zero-initialised by `getRoutes` and set only by the smoother. -/
structure Vehicle where
  id : String
  lat : ℝ
  lon : ℝ
  headsign : String
  direction : ℤ

/-- `map[RouteID]Vehicles` as an association list. -/
abbrev Routes := List (String × List Vehicle)

/-- Map lookup on a snapshot. -/
def findRoute (rs : Routes) (rid : String) : Option (List Vehicle) :=
  assocFind rs rid

/-- The `routes[routeID] = append(routes[routeID], v)` step of
`getRoutes` (src/main.go:340-342 and 370-375): create the key if absent,
then append. -/
def addVehicle (rs : Routes) (rid : String) (v : Vehicle) : Routes :=
  match rs with
  | [] => [(rid, [v])]
  | (r, vs) :: rest =>
    if r == rid then (r, vs ++ [v]) :: rest
    else (r, vs) :: addVehicle rest rid v

/-- The loop of `getRoutes` (src/main.go:335-378), threading the cache
state: enrich each vehicle via `lookupWithRefresh` and append it to its
route with `Direction` left at the zero value. -/
def getRoutesAux (env : NetEnv) :
    List VehiclePosition → CacheState → Routes → Routes × CacheState
  | [], s, acc => (acc, s)
  | v :: rest, s, acc =>
    let r := lookupWithRefresh env s v.getRouteId v.getTripId
    let veh : Vehicle :=
      { id := v.getVehicleId, lat := v.getLatitude, lon := v.getLongitude,
        headsign := r.trip.headsign, direction := 0 }
    getRoutesAux env rest r.state (addVehicle acc v.getRouteId veh)

/-- `getRoutes` (src/main.go:335-378). -/
def getRoutes (env : NetEnv) (vehicles : List VehiclePosition) (s : CacheState) :
    Routes × CacheState :=
  getRoutesAux env vehicles s []

/-! ## Geometry and the heading smoother -/

/-- `Point` (src/main.go:302-305). -/
structure Point where
  lat : ℝ
  lon : ℝ

/-- Go's `math.Atan2 y x`, idealised over the reals: the argument of the
complex number `x + y i`, lying in `(-π, π]`. -/
noncomputable def atan2 (y x : ℝ) : ℝ :=
  Complex.arg ⟨x, y⟩

/-- `calculateBearing` (src/main.go:307-316): `atan2(dLat, dLon)` in
degrees, with negative results shifted by `+360`. -/
noncomputable def calculateBearing (p1 p2 : Point) : ℝ :=
  let dx := p2.lon - p1.lon
  let dy := p2.lat - p1.lat
  let angle := atan2 dy dx * 180 / Real.pi
  if angle < 0 then angle + 360 else angle

/-- `calculateDistance` (src/main.go:318-323): planar displacement
`sqrt(dx² + dy²)`. -/
noncomputable def calculateDistance (p1 p2 : Point) : ℝ :=
  let dx := p2.lon - p1.lon
  let dy := p2.lat - p1.lat
  Real.sqrt (dx * dx + dy * dy)

/-- Go's `int(x)` conversion from a float: truncation toward zero. -/
noncomputable def truncInt (x : ℝ) : ℤ :=
  if 0 ≤ x then ⌊x⌋ else ⌈x⌉

/-- The matched-vehicle body of `calculateVehicleBearings`
(src/main.go:397-419): keep the old heading, unless the vehicle moved at
least `1e-5` and the truncated candidate bearing differs from the old
heading by more than 3 degrees, in which case take the candidate. -/
noncomputable def smoothMatched (oldVehicle v : Vehicle) : Vehicle :=
  let oldPosition : Point := ⟨oldVehicle.lat, oldVehicle.lon⟩
  let newPosition : Point := ⟨v.lat, v.lon⟩
  let newAzimuth : ℤ := truncInt (calculateBearing oldPosition newPosition)
  let moveThreshold : ℝ := 1e-5
  if calculateDistance oldPosition newPosition < moveThreshold then
    { v with direction := oldVehicle.direction }
  else if 3 < |newAzimuth - oldVehicle.direction| then
    { v with direction := newAzimuth }
  else
    { v with direction := oldVehicle.direction }

/-- Per-vehicle step of `calculateVehicleBearings` (src/main.go:388-420):
find the previous fix of the same vehicle id on the route
(`slices.IndexFunc`, first match); a vehicle with no previous fix is left
untouched. -/
noncomputable def smoothVehicle (oldRouteVehicles : List Vehicle) (v : Vehicle) :
    Vehicle :=
  match oldRouteVehicles.find? (fun o => o.id == v.id) with
  | none => v
  | some oldVehicle => smoothMatched oldVehicle v

/-- `calculateVehicleBearings` (src/main.go:380-424): routes absent from
the previous snapshot are skipped wholesale; otherwise each vehicle is
smoothed against the route's previous vehicle list. -/
noncomputable def calculateVehicleBearings (oldRoutes newRoutes : Routes) : Routes :=
  newRoutes.map (fun e =>
    match findRoute oldRoutes e.1 with
    | none => e
    | some oldVs => (e.1, e.2.map (smoothVehicle oldVs)))

/-! ## Fetch and the update loop -/

/-- An HTTP response for the realtime feed URL: status code and body
(`none` = the body read fails). -/
structure HttpResponse where
  statusCode : Nat
  bodyBytes : Option (List Nat)

/-- `fetchGTFSRealTime` (src/main.go:263-285), parameterised by the
transport result (`none` = transport error) and by the protobuf
unmarshaller (`none` = decode failure). -/
def fetchGTFSRealTime (resp : Option HttpResponse)
    (unmarshal : List Nat → Option FeedMessage) : Except String FeedMessage :=
  match resp with
  | none => .error "Failed to fetch GTFS Realtime feed"
  | some r =>
    if r.statusCode ≠ 200 then .error "Unexpected response code"
    else
      match r.bodyBytes with
      | none => .error "Failed to read response body"
      | some data =>
        match unmarshal data with
        | none => .error "Failed to parse protobuf"
        | some feed => .ok feed

/-- The two process-wide cells the loop publishes to:
`lastUpdateTimestamp` and `allVehicles` (src/main.go:299-300). -/
structure LoopState where
  lastUpdateTimestamp : Nat
  allVehicles : Routes

/-- The enrich-smooth-publish tail of a loop cycle (src/main.go:609-620):
extract vehicles (abandoning the cycle on the — never occurring — error),
build the new snapshot, smooth against the previously published one, and
store the result. -/
noncomputable def publishCycle (env : NetEnv) (feed : FeedMessage)
    (cache : CacheState) (s : LoopState) : LoopState × CacheState :=
  let vd := getVehiclesData feed
  match vd.2 with
  | some _ => (s, cache)
  | none =>
    let built := getRoutes env vd.1 cache
    let updatedRoutes := calculateVehicleBearings s.allVehicles built.1
    ({ s with allVehicles := updatedRoutes }, built.2)

/-- One successfully fetched feed through the loop body
(src/main.go:600-620): when a header timestamp is present, discard the
feed unless it is strictly greater than the stored timestamp, storing it
otherwise; then publish. -/
noncomputable def processFeed (env : NetEnv) (feed : FeedMessage)
    (cache : CacheState) (s : LoopState) : LoopState × CacheState :=
  match feed.headerTimestamp with
  | some t =>
    if t ≤ s.lastUpdateTimestamp then (s, cache)
    else publishCycle env feed cache { s with lastUpdateTimestamp := t }
  | none => publishCycle env feed cache s

/-- One full cycle (src/main.go:591-621): a fetch error is logged and the
cycle abandoned with all state untouched. -/
noncomputable def runCycle (env : NetEnv) (fetchResult : Except String FeedMessage)
    (cache : CacheState) (s : LoopState) : LoopState × CacheState :=
  match fetchResult with
  | .error _ => (s, cache)
  | .ok feed => processFeed env feed cache s

/-- A sequence of cycles. -/
noncomputable def runCycles (env : NetEnv) (fetches : List (Except String FeedMessage))
    (cache : CacheState) (s : LoopState) : LoopState × CacheState :=
  match fetches with
  | [] => (s, cache)
  | f :: rest =>
    let step := runCycle env f cache s
    runCycles env rest step.2 step.1

/-! ## Concrete fixtures used by the closed theorems below -/

/-- A version token in the archive's attachment format. -/
def disp1 : String := "attachment; filename=zet-gtfs-scheduled-000-00368.zip"

/-- A later version token, differing from `disp1`. -/
def disp2 : String := "attachment; filename=zet-gtfs-scheduled-000-00369.zip"

/-- One well-formed schedule row: route `2`, trip `B`, headsign `Dubec`. -/
def bugRows : List (List String) := [["2", "svc", "B", "Dubec", "shape", "0"]]

/-- A cache that knows route `1`, trip `A` only, loaded from token `disp1`. -/
def bugCache : CacheState := ⟨[("1", [("A", ⟨"Borongaj", "0"⟩)])], disp1⟩

/-- Responses of a cycle in which the HEAD probe advertises `disp2` and the
archive downloads and parses cleanly into `bugRows`. -/
def bugEnvOk : NetEnv := ⟨some disp2, .success disp2 bugRows false⟩

/-- As `bugEnvOk` but the CSV parse of the downloaded archive reports an
error, having produced the partial rows `bugRows`. -/
def bugEnvPerr : NetEnv := ⟨some disp2, .success disp2 bugRows true⟩

/-- An environment in which the HEAD probe fails, so the cache never
counts as stale. -/
def envQuiet : NetEnv := ⟨none, .failure⟩

/-- A previous fix: vehicle `a` at (45.8, 15.98) with heading 90. -/
def oldA : Vehicle := ⟨"a", 45.8, 15.98, "", 90⟩

/-- Vehicle `a` again at exactly the same position. -/
def vA : Vehicle := ⟨"a", 45.8, 15.98, "", 0⟩

/-- A previous fix: vehicle `b` at the origin with heading 90. -/
def oldB : Vehicle := ⟨"b", 0, 0, "", 90⟩

/-- Vehicle `b` moved one degree of longitude east. -/
def vB : Vehicle := ⟨"b", 0, 1, "", 0⟩

/-- A previous fix: vehicle `c` at the origin with heading 0. -/
def oldC : Vehicle := ⟨"c", 0, 0, "", 0⟩

/-- Vehicle `c` moved one degree of longitude east. -/
def vC : Vehicle := ⟨"c", 0, 1, "", 7⟩

/-! ## Properties used in the statements below -/

/-- Some vehicle satisfying `p` is recorded under route `rid` in the
snapshot `rs`. -/
def vehicleReported (rs : Routes) (rid : String) (p : Vehicle → Prop) : Prop :=
  ∃ vs, findRoute rs rid = some vs ∧ ∃ pv, pv ∈ vs ∧ p pv

/-- The published heading is an integer between 0 and 359. -/
def dirOK (v : Vehicle) : Prop := 0 ≤ v.direction ∧ v.direction ≤ 359

/-- Every vehicle of every route of the snapshot has an in-range heading. -/
def dirOKRoutes (rs : Routes) : Prop := ∀ e ∈ rs, ∀ v ∈ e.2, dirOK v

/-! ## Cache lemmas -/

/-- `getTrip` returns the zero `Trip` whenever it reports a miss. -/
theorem getTrip_eq_default_of_not_found (rt : RoutesToTrips) (r t : String)
    (h : (getTrip rt r t).2 = false) : (getTrip rt r t).1 = ⟨"", ""⟩ := by
  unfold getTrip at *
  cases hr : assocFind rt r with
  | none => simp [hr]
  | some route =>
    cases ht : assocFind route t with
    | none => simp [hr, ht]
    | some trip => simp [hr, ht] at h

/-! ## C1 -/

set_option maxRecDepth 8000 in
/-- C1: the claim says a successful download+parse replaces the
(routeID, tripID) mapping wholesale together with its version token, and
that a failure leaves the cached mapping unchanged.  The code has the
success test inverted (`if err != nil` in src/main.go:348), so at this
concrete input the archive token is stale, one refresh runs, the download
and parse succeed and contain the missing pair, yet the mapping is left
unchanged and the retried lookup still misses; conversely, when the parse
fails, the old mapping is clobbered by the partial rows. -/
theorem c1_refresh_swap_inverted_eval :
    isTripsDataStale bugEnvOk bugCache.cachedTripsFilename = true ∧
    (lookupWithRefresh bugEnvOk bugCache "2" "B").refreshes = 1 ∧
    (lookupWithRefresh bugEnvOk bugCache "2" "B").state.routesToTrips =
      bugCache.routesToTrips ∧
    (lookupWithRefresh bugEnvOk bugCache "2" "B").found = false ∧
    (getTrip (buildRoutesToTrips bugRows) "2" "B").2 = true ∧
    (lookupWithRefresh bugEnvPerr bugCache "2" "B").state.routesToTrips =
      buildRoutesToTrips bugRows ∧
    buildRoutesToTrips bugRows ≠ bugCache.routesToTrips := by
  decide

/-! ## C3 -/

/-- C3: a lookup of a missing (route, trip) pair with a stale archive
token performs exactly one refresh and exactly one retried lookup; a
missing pair with a non-stale token performs no refresh and leaves the
cache state untouched; and after a refresh whose download succeeded the
token matches the HEAD disposition again, so the staleness probe reports
false for the resulting state. -/
theorem c3_miss_refresh_once :
    (∀ env s r t, (getTrip s.routesToTrips r t).2 = false →
      isTripsDataStale env s.cachedTripsFilename = true →
      (lookupWithRefresh env s r t).refreshes = 1 ∧
        (lookupWithRefresh env s r t).lookups = 2) ∧
    (∀ env s r t, (getTrip s.routesToTrips r t).2 = false →
      isTripsDataStale env s.cachedTripsFilename = false →
      (lookupWithRefresh env s r t).refreshes = 0 ∧
        (lookupWithRefresh env s r t).state = s) ∧
    (∀ d rows perr s r t, (getTrip s.routesToTrips r t).2 = false →
      isTripsDataStale ⟨some d, .success d rows perr⟩ s.cachedTripsFilename = true →
      isTripsDataStale ⟨some d, .success d rows perr⟩
        (lookupWithRefresh ⟨some d, .success d rows perr⟩ s r t).state.cachedTripsFilename
        = false) := by
  refine ⟨?_, ?_, ?_⟩
  · intro env s r t hmiss hstale
    simp [lookupWithRefresh, hmiss, hstale]
  · intro env s r t hmiss hstale
    simp [lookupWithRefresh, hmiss, hstale]
  · intro d rows perr s r t hmiss hstale
    have hfile :
        (lookupWithRefresh ⟨some d, .success d rows perr⟩ s r t).state.cachedTripsFilename
          = d := by
      simp only [lookupWithRefresh, hmiss, hstale, getTripsData]
      cases perr <;> simp
    rw [hfile]
    simp [isTripsDataStale]

set_option maxRecDepth 8000 in
/-- Witness for C3 at concrete inputs: the pair (2, B) is missing from
`bugCache`; with the stale environment `bugEnvOk` exactly one refresh and
two lookups happen, with the quiet environment no refresh happens, and
after the successful refresh the token is no longer stale. -/
theorem c3_miss_refresh_once_witness :
    ((lookupWithRefresh bugEnvOk bugCache "2" "B").refreshes = 1 ∧
      (lookupWithRefresh bugEnvOk bugCache "2" "B").lookups = 2) ∧
    ((lookupWithRefresh envQuiet bugCache "2" "B").refreshes = 0 ∧
      (lookupWithRefresh envQuiet bugCache "2" "B").state = bugCache) ∧
    isTripsDataStale bugEnvOk
      (lookupWithRefresh bugEnvOk bugCache "2" "B").state.cachedTripsFilename = false :=
  ⟨c3_miss_refresh_once.1 bugEnvOk bugCache "2" "B" (by decide) (by decide),
   c3_miss_refresh_once.2.1 envQuiet bugCache "2" "B" (by decide) (by decide),
   c3_miss_refresh_once.2.2 disp2 bugRows false bugCache "2" "B" (by decide) (by decide)⟩

/-! ## Snapshot membership lemmas -/

theorem findRoute_cons (r : String) (vs : List Vehicle) (rest : Routes)
    (rid : String) :
    findRoute ((r, vs) :: rest) rid = if r == rid then some vs else findRoute rest rid := by
  by_cases h : r == rid <;> simp [findRoute, assocFind, List.find?, h]

theorem addVehicle_cons (r : String) (vs : List Vehicle) (rest : Routes)
    (rid : String) (v : Vehicle) :
    addVehicle ((r, vs) :: rest) rid v =
      if r == rid then (r, vs ++ [v]) :: rest else (r, vs) :: addVehicle rest rid v := by
  by_cases h : r == rid <;> simp [addVehicle, h]

theorem vehicleReported_addVehicle_self (rs : Routes) (rid : String) (v : Vehicle)
    (p : Vehicle → Prop) (hp : p v) : vehicleReported (addVehicle rs rid v) rid p := by
  induction rs with
  | nil =>
    exact ⟨[v], by simp [addVehicle, findRoute, assocFind, List.find?],
      v, List.mem_singleton.mpr rfl, hp⟩
  | cons e rest ih =>
    obtain ⟨r, vs⟩ := e
    rw [addVehicle_cons]
    by_cases hr : r == rid
    · rw [if_pos hr]
      exact ⟨vs ++ [v], by rw [findRoute_cons, if_pos hr], v, by simp, hp⟩
    · rw [if_neg hr]
      obtain ⟨vs1, hfind, pv, hmem, hpv⟩ := ih
      exact ⟨vs1, by rw [findRoute_cons, if_neg hr]; exact hfind, pv, hmem, hpv⟩

theorem vehicleReported_addVehicle_mono (rs : Routes) (rid1 : String)
    (p : Vehicle → Prop) (rid : String) (v : Vehicle)
    (h : vehicleReported rs rid1 p) : vehicleReported (addVehicle rs rid v) rid1 p := by
  induction rs with
  | nil =>
    obtain ⟨vs, hfind, _⟩ := h
    simp [findRoute, assocFind] at hfind
  | cons e rest ih =>
    obtain ⟨r, vs⟩ := e
    obtain ⟨vs1, hfind, pv, hmem, hpv⟩ := h
    rw [findRoute_cons] at hfind
    rw [addVehicle_cons]
    by_cases hr : r == rid
    · rw [if_pos hr]
      by_cases hr1 : r == rid1
      · rw [if_pos hr1, Option.some_inj] at hfind
        subst hfind
        exact ⟨vs ++ [v], by rw [findRoute_cons, if_pos hr1],
          pv, List.mem_append_left _ hmem, hpv⟩
      · rw [if_neg hr1] at hfind
        exact ⟨vs1, by rw [findRoute_cons, if_neg hr1]; exact hfind, pv, hmem, hpv⟩
    · rw [if_neg hr]
      by_cases hr1 : r == rid1
      · rw [if_pos hr1, Option.some_inj] at hfind
        exact ⟨vs1, by rw [findRoute_cons, if_pos hr1, hfind], pv, hmem, hpv⟩
      · rw [if_neg hr1] at hfind
        obtain ⟨vs2, hfind2, pv2, hmem2, hpv2⟩ := ih ⟨vs1, hfind, pv, hmem, hpv⟩
        exact ⟨vs2, by rw [findRoute_cons, if_neg hr1]; exact hfind2, pv2, hmem2, hpv2⟩

theorem vehicleReported_getRoutesAux_mono (env : NetEnv) :
    ∀ (l : List VehiclePosition) (s : CacheState) (acc : Routes) (rid : String)
      (p : Vehicle → Prop), vehicleReported acc rid p →
      vehicleReported (getRoutesAux env l s acc).1 rid p := by
  intro l
  induction l with
  | nil => intro s acc rid p h; simpa [getRoutesAux] using h
  | cons v rest ih =>
    intro s acc rid p h
    simp only [getRoutesAux]
    exact ih _ _ rid p (vehicleReported_addVehicle_mono _ _ _ _ _ h)

theorem vehicleReported_getRoutesAux_mem (env : NetEnv) :
    ∀ (l : List VehiclePosition) (s : CacheState) (acc : Routes) (v : VehiclePosition),
      v ∈ l →
      vehicleReported (getRoutesAux env l s acc).1 v.getRouteId
        (fun pv => pv.id = v.getVehicleId ∧ pv.lat = v.getLatitude ∧
          pv.lon = v.getLongitude) := by
  intro l
  induction l with
  | nil => intro s acc v hv; cases hv
  | cons u rest ih =>
    intro s acc v hv
    rcases List.mem_cons.mp hv with hv | hv
    · subst hv
      simp only [getRoutesAux]
      exact vehicleReported_getRoutesAux_mono env rest _ _ _ _
        (vehicleReported_addVehicle_self _ _ _ _ ⟨rfl, rfl, rfl⟩)
    · simp only [getRoutesAux]
      exact ih _ _ v hv

/-! ## C7 -/

/-- C7: every vehicle-position entity reaches the built snapshot under its
route id with its id and coordinates intact, whatever the cache and the
archive responses do; and whenever the enrichment lookup still reports a
miss after its refresh handling, the trip used for enrichment is the zero
one, so the vehicle is published with an empty headsign rather than
dropped. -/
theorem c7_vehicle_never_dropped :
    (∀ env (vehicles : List VehiclePosition) s v, v ∈ vehicles →
      vehicleReported (getRoutes env vehicles s).1 v.getRouteId
        (fun pv => pv.id = v.getVehicleId ∧ pv.lat = v.getLatitude ∧
          pv.lon = v.getLongitude)) ∧
    (∀ env s r t, (lookupWithRefresh env s r t).found = false →
      (lookupWithRefresh env s r t).trip.headsign = "") := by
  constructor
  · intro env vehicles s v hv
    exact vehicleReported_getRoutesAux_mem env vehicles s [] v hv
  · intro env s r t h
    by_cases hfst : (getTrip s.routesToTrips r t).2
    · simp [lookupWithRefresh, hfst] at h
    · rw [Bool.not_eq_true] at hfst
      by_cases hstale : isTripsDataStale env s.cachedTripsFilename
      · simp only [lookupWithRefresh, hfst, Bool.false_eq_true, if_false, hstale,
          if_true] at h ⊢
        rw [getTrip_eq_default_of_not_found _ _ _ h]
      · rw [Bool.not_eq_true] at hstale
        simp only [lookupWithRefresh, hfst, hstale, Bool.false_eq_true, if_false]
        rw [getTrip_eq_default_of_not_found _ _ _ hfst]

/-- Witness for C7: a concrete entity whose (route, trip) pair is unknown
and stays unknown (quiet environment) is still published, and the
enrichment used the empty headsign. -/
theorem c7_vehicle_never_dropped_witness :
    vehicleReported
      (getRoutes envQuiet [⟨some ⟨some "2", some "B"⟩, some ⟨some 45.8, some 15.98⟩,
        some ⟨some "veh7"⟩⟩] bugCache).1
      (VehiclePosition.getRouteId ⟨some ⟨some "2", some "B"⟩,
        some ⟨some 45.8, some 15.98⟩, some ⟨some "veh7"⟩⟩)
      (fun pv => pv.id = VehiclePosition.getVehicleId ⟨some ⟨some "2", some "B"⟩,
          some ⟨some 45.8, some 15.98⟩, some ⟨some "veh7"⟩⟩ ∧
        pv.lat = VehiclePosition.getLatitude ⟨some ⟨some "2", some "B"⟩,
          some ⟨some 45.8, some 15.98⟩, some ⟨some "veh7"⟩⟩ ∧
        pv.lon = VehiclePosition.getLongitude ⟨some ⟨some "2", some "B"⟩,
          some ⟨some 45.8, some 15.98⟩, some ⟨some "veh7"⟩⟩) ∧
    (lookupWithRefresh envQuiet bugCache "2" "B").trip.headsign = "" :=
  ⟨c7_vehicle_never_dropped.1 envQuiet _ bugCache _ (List.mem_singleton.mpr rfl),
   c7_vehicle_never_dropped.2 envQuiet bugCache "2" "B" (by decide)⟩

/-! ## Geometry lemmas -/

theorem calculateBearing_bounds (p1 p2 : Point) :
    0 ≤ calculateBearing p1 p2 ∧ calculateBearing p1 p2 < 360 := by
  have hpi : (0:ℝ) < Real.pi := Real.pi_pos
  have h1 : -Real.pi < Complex.arg ⟨p2.lon - p1.lon, p2.lat - p1.lat⟩ :=
    Complex.neg_pi_lt_arg _
  have h2 : Complex.arg ⟨p2.lon - p1.lon, p2.lat - p1.lat⟩ ≤ Real.pi :=
    Complex.arg_le_pi _
  simp only [calculateBearing, atan2]
  set a := Complex.arg ⟨p2.lon - p1.lon, p2.lat - p1.lat⟩ with ha
  have hub : a * 180 / Real.pi ≤ 180 := by
    rw [div_le_iff₀ hpi]; nlinarith
  have hlb : (-180:ℝ) < a * 180 / Real.pi := by
    rw [lt_div_iff₀ hpi]; nlinarith
  split_ifs with h
  · exact ⟨by linarith, by linarith⟩
  · exact ⟨le_of_not_lt h, by linarith⟩

theorem truncInt_calculateBearing_bounds (p1 p2 : Point) :
    0 ≤ truncInt (calculateBearing p1 p2) ∧
      truncInt (calculateBearing p1 p2) ≤ 359 := by
  obtain ⟨h0, h360⟩ := calculateBearing_bounds p1 p2
  unfold truncInt
  rw [if_pos h0]
  refine ⟨Int.floor_nonneg.mpr h0, ?_⟩
  have hlt : ⌊calculateBearing p1 p2⌋ < 360 := by
    apply Int.floor_lt.mpr
    exact_mod_cast h360
  omega

/-- The smoothed direction of a matched vehicle is either the previous
heading or the truncated candidate bearing. -/
theorem smoothMatched_direction_cases (oldV v : Vehicle) :
    (smoothMatched oldV v).direction = oldV.direction ∨
    (smoothMatched oldV v).direction =
      truncInt (calculateBearing ⟨oldV.lat, oldV.lon⟩ ⟨v.lat, v.lon⟩) := by
  simp only [smoothMatched]
  split_ifs <;> simp

/-! ## Direction-range invariants -/

theorem findRoute_mem (rs : Routes) (rid : String) (vs : List Vehicle)
    (h : findRoute rs rid = some vs) : ∃ e ∈ rs, e.2 = vs := by
  unfold findRoute assocFind at h
  cases hf : rs.find? (fun p => p.1 == rid) with
  | none => rw [hf] at h; simp at h
  | some p =>
    rw [hf] at h
    simp at h
    exact ⟨p, List.mem_of_find?_eq_some hf, h⟩

theorem dirOK_smoothVehicle (oldVs : List Vehicle) (v : Vehicle)
    (hold : ∀ o ∈ oldVs, dirOK o) (hv : dirOK v) : dirOK (smoothVehicle oldVs v) := by
  unfold smoothVehicle
  cases hfind : oldVs.find? (fun o => o.id == v.id) with
  | none => exact hv
  | some oldV =>
    have hOV : dirOK oldV := hold _ (List.mem_of_find?_eq_some hfind)
    rcases smoothMatched_direction_cases oldV v with h | h
    · exact ⟨h ▸ hOV.1, h ▸ hOV.2⟩
    · have hb := truncInt_calculateBearing_bounds ⟨oldV.lat, oldV.lon⟩ ⟨v.lat, v.lon⟩
      exact ⟨h ▸ hb.1, h ▸ hb.2⟩

theorem dirOKRoutes_calculateVehicleBearings (oldRoutes newRoutes : Routes)
    (hold : dirOKRoutes oldRoutes) (hnew : dirOKRoutes newRoutes) :
    dirOKRoutes (calculateVehicleBearings oldRoutes newRoutes) := by
  intro e he u hu
  unfold calculateVehicleBearings at he
  obtain ⟨e0, he0, heq⟩ := List.mem_map.mp he
  cases hf : findRoute oldRoutes e0.1 with
  | none =>
    rw [hf] at heq
    subst heq
    exact hnew e0 he0 u hu
  | some oldVs =>
    rw [hf] at heq
    subst heq
    obtain ⟨u0, hu0, rfl⟩ := List.mem_map.mp hu
    obtain ⟨eOld, heOld, hvs⟩ := findRoute_mem oldRoutes e0.1 oldVs hf
    exact dirOK_smoothVehicle oldVs u0
      (fun o ho => hold eOld heOld o (hvs ▸ ho)) (hnew e0 he0 u0 hu0)

/-! ## Vehicles built by getRoutes carry the zero direction -/

theorem addVehicle_forall {p : Vehicle → Prop} (rs : Routes) (rid : String)
    (v : Vehicle) (hrs : ∀ e ∈ rs, ∀ u ∈ e.2, p u) (hv : p v) :
    ∀ e ∈ addVehicle rs rid v, ∀ u ∈ e.2, p u := by
  induction rs with
  | nil =>
    intro e he u hu
    simp only [addVehicle, List.mem_singleton] at he
    subst he
    simp only [List.mem_singleton] at hu
    subst hu
    exact hv
  | cons e0 rest ih =>
    obtain ⟨r, vs⟩ := e0
    rw [addVehicle_cons]
    by_cases hr : r == rid
    · rw [if_pos hr]
      intro e he u hu
      rcases List.mem_cons.mp he with he | he
      · subst he
        rcases List.mem_append.mp hu with h | h
        · exact hrs (r, vs) (List.mem_cons_self _ _) u h
        · simp only [List.mem_singleton] at h
          subst h
          exact hv
      · exact hrs e (List.mem_cons_of_mem _ he) u hu
    · rw [if_neg hr]
      intro e he u hu
      rcases List.mem_cons.mp he with he | he
      · subst he
        exact hrs (r, vs) (List.mem_cons_self _ _) u hu
      · exact ih (fun e1 he1 => hrs e1 (List.mem_cons_of_mem _ he1)) e he u hu

theorem getRoutesAux_direction_zero (env : NetEnv) :
    ∀ (l : List VehiclePosition) (s : CacheState) (acc : Routes),
      (∀ e ∈ acc, ∀ u ∈ e.2, u.direction = 0) →
      ∀ e ∈ (getRoutesAux env l s acc).1, ∀ u ∈ e.2, u.direction = 0 := by
  intro l
  induction l with
  | nil => intro s acc h; simpa [getRoutesAux] using h
  | cons v rest ih =>
    intro s acc h
    simp only [getRoutesAux]
    exact ih _ _ (addVehicle_forall _ _ _ h rfl)

/-! ## findRoute through the smoother -/

theorem findRoute_calculateVehicleBearings (oldRoutes : Routes) (rid : String) :
    ∀ newRoutes : Routes,
      findRoute (calculateVehicleBearings oldRoutes newRoutes) rid =
        (findRoute newRoutes rid).map (fun vs =>
          match findRoute oldRoutes rid with
          | none => vs
          | some oldVs => vs.map (smoothVehicle oldVs)) := by
  intro newRoutes
  induction newRoutes with
  | nil => simp [calculateVehicleBearings, findRoute, assocFind]
  | cons e rest ih =>
    obtain ⟨r, vs⟩ := e
    by_cases hr : r == rid
    · have hreq : r = rid := by simpa using hr
      subst hreq
      cases hold : findRoute oldRoutes r with
      | none =>
        simp only [calculateVehicleBearings, List.map_cons, hold]
        rw [findRoute_cons, if_pos hr, findRoute_cons, if_pos hr]
        simp [hold]
      | some oldVs =>
        simp only [calculateVehicleBearings, List.map_cons, hold]
        rw [findRoute_cons, if_pos hr, findRoute_cons, if_pos hr]
        simp [hold]
    · cases hold : findRoute oldRoutes r with
      | none =>
        simp only [calculateVehicleBearings, List.map_cons, hold]
        rw [findRoute_cons, if_neg hr, findRoute_cons, if_neg hr]
        simpa [calculateVehicleBearings] using ih
      | some oldVs =>
        simp only [calculateVehicleBearings, List.map_cons, hold]
        rw [findRoute_cons, if_neg hr, findRoute_cons, if_neg hr]
        simpa [calculateVehicleBearings] using ih

/-! ## C4 -/

/-- C4: on a route present in both snapshots the smoother maps each
vehicle through `smoothVehicle` against the route's previous vehicles;
and for a vehicle whose id matches a previous fix, the heading stays the
previous one when the displacement distance is under `1e-5`, while at or
above that threshold the truncated candidate bearing is adopted exactly
when it differs from the previous heading by more than 3 degrees. -/
theorem c4_heading_smoothing_thresholds :
    (∀ oldRoutes newRoutes rid oldVs newVs,
      findRoute oldRoutes rid = some oldVs → findRoute newRoutes rid = some newVs →
      findRoute (calculateVehicleBearings oldRoutes newRoutes) rid =
        some (newVs.map (smoothVehicle oldVs))) ∧
    (∀ (oldVs : List Vehicle) (v oldV : Vehicle),
      oldVs.find? (fun o => o.id == v.id) = some oldV →
      ((calculateDistance ⟨oldV.lat, oldV.lon⟩ ⟨v.lat, v.lon⟩ < 1e-5 →
          (smoothVehicle oldVs v).direction = oldV.direction) ∧
       (¬ calculateDistance ⟨oldV.lat, oldV.lon⟩ ⟨v.lat, v.lon⟩ < 1e-5 →
        ((3 < |truncInt (calculateBearing ⟨oldV.lat, oldV.lon⟩ ⟨v.lat, v.lon⟩) -
              oldV.direction| →
            (smoothVehicle oldVs v).direction =
              truncInt (calculateBearing ⟨oldV.lat, oldV.lon⟩ ⟨v.lat, v.lon⟩)) ∧
         (¬ 3 < |truncInt (calculateBearing ⟨oldV.lat, oldV.lon⟩ ⟨v.lat, v.lon⟩) -
              oldV.direction| →
            (smoothVehicle oldVs v).direction = oldV.direction))))) := by
  constructor
  · intro oldRoutes newRoutes rid oldVs newVs hOld hNew
    rw [findRoute_calculateVehicleBearings, hNew, Option.map_some']
    simp [hOld]
  · intro oldVs v oldV hfind
    have hsv : smoothVehicle oldVs v = smoothMatched oldV v := by
      unfold smoothVehicle
      rw [hfind]
    rw [hsv]
    simp only [smoothMatched]
    refine ⟨fun hdist => ?_, fun hdist => ⟨fun hang => ?_, fun hang => ?_⟩⟩
    · rw [if_pos hdist]
    · rw [if_neg hdist, if_pos hang]
    · rw [if_neg hdist, if_neg hang]

/-- Witness for C4 at concrete inputs: a stationary vehicle (identical
fixes) keeps its previous heading 90; a vehicle that moved one degree of
longitude with candidate bearing 0 (difference 90 > 3) adopts heading 0;
one whose candidate matches its previous heading 0 (difference 0 ≤ 3)
keeps heading 0; and the route-level conjunct at a one-route snapshot. -/
theorem c4_heading_smoothing_thresholds_witness :
    (smoothVehicle [oldA] vA).direction = 90 ∧
    (smoothVehicle [oldB] vB).direction = 0 ∧
    (smoothVehicle [oldC] vC).direction = 0 ∧
    findRoute (calculateVehicleBearings [("5", [oldA])] [("5", [vA])]) "5"
      = some ([vA].map (smoothVehicle [oldA])) := by
  have hdista : calculateDistance ⟨(45.8:ℝ), 15.98⟩ ⟨45.8, 15.98⟩ < 1e-5 := by
    unfold calculateDistance
    norm_num
  have hdistb : ¬ calculateDistance ⟨(0:ℝ), 0⟩ ⟨0, 1⟩ < 1e-5 := by
    unfold calculateDistance
    norm_num
  have hbear : calculateBearing ⟨(0:ℝ), 0⟩ ⟨0, 1⟩ = 0 := by
    unfold calculateBearing atan2
    norm_num
    have h1 : ((⟨1, 0⟩ : ℂ)) = 1 := by
      refine Complex.ext ?_ ?_ <;> norm_num
    rw [h1, Complex.arg_one]
    norm_num
  have htrunc : truncInt (calculateBearing ⟨(0:ℝ), 0⟩ ⟨0, 1⟩) = 0 := by
    rw [hbear]
    unfold truncInt
    norm_num
  have hangB : 3 < |truncInt (calculateBearing ⟨(0:ℝ), 0⟩ ⟨0, 1⟩) - (90:ℤ)| := by
    rw [htrunc]; decide
  have hangC : ¬ 3 < |truncInt (calculateBearing ⟨(0:ℝ), 0⟩ ⟨0, 1⟩) - (0:ℤ)| := by
    rw [htrunc]; decide
  refine ⟨?_, ?_, ?_, ?_⟩
  · exact (c4_heading_smoothing_thresholds.2 [oldA] vA oldA rfl).1 hdista
  · have h := ((c4_heading_smoothing_thresholds.2 [oldB] vB oldB rfl).2 hdistb).1 hangB
    rw [h]
    exact htrunc
  · exact ((c4_heading_smoothing_thresholds.2 [oldC] vC oldC rfl).2 hdistb).2 hangC
  · exact c4_heading_smoothing_thresholds.1 [("5", [oldA])] [("5", [vA])] "5"
      [oldA] [vA] rfl rfl

/-! ## C5 -/

/-- C5: the candidate bearing is the degree-scaled `atan2(dLat, dLon)`
with negative values shifted by `+360` (definitional), hence lies in
`[0, 360)`; its Go-`int` truncation lies in `0..359`; the smoother maps
snapshots with in-range headings to snapshots with in-range headings; and
`getRoutes` only produces in-range (zero) headings — so every published
heading is an integer in `0..359`. -/
theorem c5_heading_integer_range :
    (∀ p1 p2 : Point, calculateBearing p1 p2 =
      (if atan2 (p2.lat - p1.lat) (p2.lon - p1.lon) * 180 / Real.pi < 0 then
        atan2 (p2.lat - p1.lat) (p2.lon - p1.lon) * 180 / Real.pi + 360
      else atan2 (p2.lat - p1.lat) (p2.lon - p1.lon) * 180 / Real.pi)) ∧
    (∀ p1 p2 : Point, 0 ≤ calculateBearing p1 p2 ∧ calculateBearing p1 p2 < 360) ∧
    (∀ p1 p2 : Point, 0 ≤ truncInt (calculateBearing p1 p2) ∧
      truncInt (calculateBearing p1 p2) ≤ 359) ∧
    (∀ oldRoutes newRoutes, dirOKRoutes oldRoutes → dirOKRoutes newRoutes →
      dirOKRoutes (calculateVehicleBearings oldRoutes newRoutes)) ∧
    (∀ env vehicles s, dirOKRoutes (getRoutes env vehicles s).1) :=
  ⟨fun _ _ => rfl,
   calculateBearing_bounds,
   truncInt_calculateBearing_bounds,
   dirOKRoutes_calculateVehicleBearings,
   fun env vehicles s e he u hu => by
     have h := getRoutesAux_direction_zero env vehicles s []
       (by intro e1 he1; cases he1) e he u hu
     exact ⟨by omega, by omega⟩⟩

/-- Witness for C5: the smoothing preservation conjunct applied at a
concrete one-vehicle snapshot pair with in-range headings. -/
theorem c5_heading_integer_range_witness :
    dirOKRoutes (calculateVehicleBearings [("5", [oldA])] [("5", [vA])]) :=
  c5_heading_integer_range.2.2.2.1 [("5", [oldA])] [("5", [vA])]
    (by
      intro e he u hu
      simp only [List.mem_singleton] at he
      subst he
      simp only [List.mem_singleton] at hu
      subst hu
      exact ⟨by decide, by decide⟩)
    (by
      intro e he u hu
      simp only [List.mem_singleton] at he
      subst he
      simp only [List.mem_singleton] at hu
      subst hu
      exact ⟨by decide, by decide⟩)

/-! ## C6 -/

/-- C6: a route absent from the previous snapshot passes through the
smoother unchanged; a vehicle whose id has no match among the previous
snapshot's vehicles on its route is returned unchanged by the per-vehicle
smoothing step; and every vehicle `getRoutes` builds carries the default
heading 0 — so such vehicles keep the default heading regardless of any
displacement. -/
theorem c6_new_vehicle_keeps_default_heading :
    (∀ oldRoutes newRoutes rid vs, findRoute oldRoutes rid = none →
      findRoute newRoutes rid = some vs →
      findRoute (calculateVehicleBearings oldRoutes newRoutes) rid = some vs) ∧
    (∀ (oldVs : List Vehicle) (v : Vehicle),
      oldVs.find? (fun o => o.id == v.id) = none → smoothVehicle oldVs v = v) ∧
    (∀ env vehicles s, ∀ e ∈ (getRoutes env vehicles s).1, ∀ u ∈ e.2,
      u.direction = 0) := by
  refine ⟨?_, ?_, ?_⟩
  · intro oldRoutes newRoutes rid vs hOld hNew
    rw [findRoute_calculateVehicleBearings, hNew, Option.map_some']
    simp [hOld]
  · intro oldVs v h
    unfold smoothVehicle
    rw [h]
  · intro env vehicles s
    exact getRoutesAux_direction_zero env vehicles s [] (by intro e he; cases he)

/-- Witness for C6: a route new to the snapshot passes through untouched,
and a vehicle id unknown to the previous route list is left unchanged. -/
theorem c6_new_vehicle_keeps_default_heading_witness :
    findRoute (calculateVehicleBearings [] [("5", [vA])]) "5" = some [vA] ∧
    smoothVehicle [oldB] vA = vA :=
  ⟨c6_new_vehicle_keeps_default_heading.1 [] [("5", [vA])] "5" [vA] rfl rfl,
   c6_new_vehicle_keeps_default_heading.2.1 [oldB] vA rfl⟩

/-! ## Update-loop lemmas -/

/-- `getVehiclesData` never errors, so `publishCycle` always reaches the
build-smooth-store tail. -/
theorem publishCycle_eq (env : NetEnv) (feed : FeedMessage) (cache : CacheState)
    (s : LoopState) :
    publishCycle env feed cache s =
      ({ lastUpdateTimestamp := s.lastUpdateTimestamp,
         allVehicles := calculateVehicleBearings s.allVehicles
           (getRoutes env (getVehiclesData feed).1 cache).1 },
       (getRoutes env (getVehiclesData feed).1 cache).2) := rfl

/-- `publishCycle` never touches the stored timestamp. -/
theorem publishCycle_ts (env : NetEnv) (feed : FeedMessage) (cache : CacheState)
    (s : LoopState) :
    (publishCycle env feed cache s).1.lastUpdateTimestamp = s.lastUpdateTimestamp := rfl

/-- A processed feed never lowers the stored timestamp. -/
theorem processFeed_ts_mono (env : NetEnv) (feed : FeedMessage) (cache : CacheState)
    (s : LoopState) :
    s.lastUpdateTimestamp ≤ (processFeed env feed cache s).1.lastUpdateTimestamp := by
  cases h : feed.headerTimestamp with
  | none =>
    simp only [processFeed, h]
    rw [publishCycle_ts]
  | some t =>
    simp only [processFeed, h]
    by_cases hle : t ≤ s.lastUpdateTimestamp
    · rw [if_pos hle]
    · rw [if_neg hle, publishCycle_ts]
      show s.lastUpdateTimestamp ≤ t
      omega

/-- One cycle never lowers the stored timestamp. -/
theorem runCycle_ts_mono (env : NetEnv) (f : Except String FeedMessage)
    (cache : CacheState) (s : LoopState) :
    s.lastUpdateTimestamp ≤ (runCycle env f cache s).1.lastUpdateTimestamp := by
  cases f with
  | error e => exact le_refl _
  | ok feed => exact processFeed_ts_mono env feed cache s

/-- The stored timestamp is non-decreasing over any sequence of cycles. -/
theorem runCycles_ts_mono (env : NetEnv) :
    ∀ (fetches : List (Except String FeedMessage)) (cache : CacheState)
      (s : LoopState),
      s.lastUpdateTimestamp ≤ (runCycles env fetches cache s).1.lastUpdateTimestamp := by
  intro fetches
  induction fetches with
  | nil => intro cache s; exact le_refl _
  | cons f rest ih =>
    intro cache s
    exact le_trans (runCycle_ts_mono env f cache s)
      (ih (runCycle env f cache s).2 (runCycle env f cache s).1)

/-! ## C2 -/

/-- C2: a feed whose header timestamp is at most the stored one is
discarded in full — the published snapshot, the stored timestamp and even
the cache are all unchanged; the stored timestamp is non-decreasing over
every cycle and every cycle sequence, and it changes only when a feed
carries a strictly greater timestamp, to exactly that timestamp. -/
theorem c2_stale_feed_discarded :
    (∀ env feed cache s t, feed.headerTimestamp = some t →
      t ≤ s.lastUpdateTimestamp → processFeed env feed cache s = (s, cache)) ∧
    (∀ env feed cache s, s.lastUpdateTimestamp ≤
      (processFeed env feed cache s).1.lastUpdateTimestamp) ∧
    (∀ env feed cache s,
      (processFeed env feed cache s).1.lastUpdateTimestamp ≠ s.lastUpdateTimestamp →
      ∃ t, feed.headerTimestamp = some t ∧ s.lastUpdateTimestamp < t ∧
        (processFeed env feed cache s).1.lastUpdateTimestamp = t) ∧
    (∀ env fetches cache s, s.lastUpdateTimestamp ≤
      (runCycles env fetches cache s).1.lastUpdateTimestamp) := by
  refine ⟨?_, processFeed_ts_mono, ?_, fun env => runCycles_ts_mono env⟩
  · intro env feed cache s t h hle
    simp only [processFeed, h]
    rw [if_pos hle]
  · intro env feed cache s hne
    cases h : feed.headerTimestamp with
    | none =>
      exfalso
      apply hne
      simp only [processFeed, h]
      rw [publishCycle_ts]
    | some t =>
      by_cases hle : t ≤ s.lastUpdateTimestamp
      · exfalso
        apply hne
        simp only [processFeed, h]
        rw [if_pos hle]
      · refine ⟨t, rfl, by omega, ?_⟩
        simp only [processFeed, h]
        rw [if_neg hle, publishCycle_ts]

/-- Witness for C2: feeding timestamp 5 into state 5 is a complete no-op,
and feeding timestamp 9 advances the stored timestamp to exactly 9. -/
theorem c2_stale_feed_discarded_witness :
    processFeed envQuiet ⟨some 5, []⟩ bugCache ⟨5, []⟩ = (⟨5, []⟩, bugCache) ∧
    (∃ t, (⟨some 9, []⟩ : FeedMessage).headerTimestamp = some t ∧ 5 < t ∧
      (processFeed envQuiet ⟨some 9, []⟩ bugCache ⟨5, []⟩).1.lastUpdateTimestamp = t) :=
  ⟨c2_stale_feed_discarded.1 envQuiet ⟨some 5, []⟩ bugCache ⟨5, []⟩ 5 rfl (by decide),
   c2_stale_feed_discarded.2.2.1 envQuiet ⟨some 9, []⟩ bugCache ⟨5, []⟩ (by decide)⟩

/-! ## C8 -/

/-- C8: each of the four failure points of `fetchGTFSRealTime` — transport
error, non-200 status, body-read failure, protobuf decode failure —
returns an error carrying no feed, and a cycle whose fetch errored leaves
the published state and the cache exactly as they were. -/
theorem c8_fetch_errors_abandon_cycle :
    (∀ u, fetchGTFSRealTime none u = .error "Failed to fetch GTFS Realtime feed") ∧
    (∀ u r, r.statusCode ≠ 200 →
      fetchGTFSRealTime (some r) u = .error "Unexpected response code") ∧
    (∀ u st, st = 200 →
      fetchGTFSRealTime (some ⟨st, none⟩) u = .error "Failed to read response body") ∧
    (∀ u data, u data = none →
      fetchGTFSRealTime (some ⟨200, some data⟩) u = .error "Failed to parse protobuf") ∧
    (∀ env e cache s, runCycle env (.error e) cache s = (s, cache)) := by
  refine ⟨fun u => rfl, ?_, ?_, ?_, fun env e cache s => rfl⟩
  · intro u r h
    simp [fetchGTFSRealTime, h]
  · intro u st h
    subst h
    simp [fetchGTFSRealTime]
  · intro u data h
    simp [fetchGTFSRealTime, h]

/-- Witness for C8: a 404 status, a failing decoder on a 200 response,
and an errored cycle at concrete states. -/
theorem c8_fetch_errors_abandon_cycle_witness :
    fetchGTFSRealTime (some ⟨404, some []⟩) (fun _ => none)
      = .error "Unexpected response code" ∧
    fetchGTFSRealTime (some ⟨200, some []⟩) (fun _ => none)
      = .error "Failed to parse protobuf" ∧
    fetchGTFSRealTime (some ⟨200, none⟩) (fun _ => none)
      = .error "Failed to read response body" ∧
    runCycle envQuiet (.error "fetch failed") bugCache ⟨7, []⟩ = (⟨7, []⟩, bugCache) :=
  ⟨c8_fetch_errors_abandon_cycle.2.1 (fun _ => none) ⟨404, some []⟩ (by decide),
   c8_fetch_errors_abandon_cycle.2.2.2.1 (fun _ => none) [] rfl,
   c8_fetch_errors_abandon_cycle.2.2.1 (fun _ => none) 200 rfl,
   c8_fetch_errors_abandon_cycle.2.2.2.2 envQuiet "fetch failed" bugCache ⟨7, []⟩⟩

/-! ## C9 -/

/-- C9: a feed with no header timestamp skips the staleness comparison
entirely — the new snapshot is built and published while the stored
timestamp is left unchanged, whatever its prior value. -/
theorem c9_nil_timestamp_publishes_without_storing :
    ∀ env feed cache s, feed.headerTimestamp = none →
      (processFeed env feed cache s).1.lastUpdateTimestamp = s.lastUpdateTimestamp ∧
      (processFeed env feed cache s).1.allVehicles =
        calculateVehicleBearings s.allVehicles
          (getRoutes env (getVehiclesData feed).1 cache).1 ∧
      (processFeed env feed cache s).2 =
        (getRoutes env (getVehiclesData feed).1 cache).2 := by
  intro env feed cache s h
  simp only [processFeed, h]
  exact ⟨rfl, rfl, rfl⟩

/-- Witness for C9: a timestampless feed at stored timestamp 7 keeps the
timestamp 7 and publishes the freshly built (smoothed) snapshot. -/
theorem c9_nil_timestamp_publishes_without_storing_witness :
    (processFeed envQuiet ⟨none, []⟩ bugCache ⟨7, []⟩).1.lastUpdateTimestamp = 7 ∧
    (processFeed envQuiet ⟨none, []⟩ bugCache ⟨7, []⟩).1.allVehicles =
      calculateVehicleBearings []
        (getRoutes envQuiet (getVehiclesData ⟨none, []⟩).1 bugCache).1 :=
  ⟨(c9_nil_timestamp_publishes_without_storing envQuiet ⟨none, []⟩ bugCache ⟨7, []⟩
      rfl).1,
   (c9_nil_timestamp_publishes_without_storing envQuiet ⟨none, []⟩ bugCache ⟨7, []⟩
      rfl).2.1⟩

/-! ## C10 -/

/-- C10: extracting the vehicle entities never fails — the error component
is `none` for every feed — so the loop's error branch after
`getVehiclesData` is unreachable: `publishCycle` always equals its
non-error continuation. -/
theorem c10_getVehiclesData_never_fails :
    (∀ feed, (getVehiclesData feed).2 = none) ∧
    (∀ env feed cache s, publishCycle env feed cache s =
      ({ lastUpdateTimestamp := s.lastUpdateTimestamp,
         allVehicles := calculateVehicleBearings s.allVehicles
           (getRoutes env (getVehiclesData feed).1 cache).1 },
       (getRoutes env (getVehiclesData feed).1 cache).2)) :=
  ⟨fun _ => rfl, publishCycle_eq⟩

end ZetMap
